import Mathlib

set_option maxRecDepth 8000

/-!
Verification development for the Server Architect bot (src/main.py).

The repository is a single Python orchestration script.  We give a shallow
embedding of its core logic over `List Char` strings and an explicit
environment record (`Api`) that supplies the outcome of every external call
(the language-generation service, the Discord platform API, and the JSON
library).  Each handler is modelled as a pure function from the current
state and the environment to the new state together with a trace of
observable events (messages sent to the user, mutation calls issued against
the target space).

Conventions:
* Python strings are `List Char`; string literals are written `"...".data`.
* Python exceptions are the inductive `Exc`; `nextcord.Forbidden` is a
  subclass of `nextcord.errors.HTTPException`, so both `Exc.forbidden` and
  `Exc.http` satisfy `Exc.isHTTP`, while every other exception
  (`AttributeError`, `TypeError`, ...) is `Exc.other`.
* Fallible calls return `Except Exc _`; an uncaught exception propagates by
  short-circuiting, exactly following the `try/except` structure of the
  source.
-/

/-! ## Python string primitives -/

/-- Substring test: Python `sep in s` on strings.  For a non-empty `sep`
this is true iff `sep` occurs contiguously somewhere in `s`. -/
def occursIn (sep : List Char) : List Char → Bool
  | [] => sep.isEmpty
  | c :: cs => sep.isPrefixOf (c :: cs) || occursIn sep cs

/-- Fuel-indexed worker for Python `str.split(sep)` (non-empty `sep`).
With fuel at least the length of the input the fuel never runs out. -/
def splitGo (sep : List Char) : Nat → List Char → List (List Char)
  | _, [] => [[]]
  | 0, c :: cs => [c :: cs]
  | f + 1, c :: cs =>
    if sep.isPrefixOf (c :: cs) then
      [] :: splitGo sep f ((c :: cs).drop sep.length)
    else
      match splitGo sep f cs with
      | [] => [[c]]
      | p :: ps => (c :: p) :: ps

/-- Python `s.split(sep)` for a non-empty separator `sep`. -/
def pySplit (sep s : List Char) : List (List Char) :=
  splitGo sep s.length s

/-- The terminal-reply marker tested by `on_message`: `"```json" in text`. -/
def markerL : List Char := "```json".data

/-- The opening fence separator used by the first `split` in
`handle_json_and_create_server`. -/
def openFenceL : List Char := "```json\n".data

/-- The closing fence separator used by the second `split`. -/
def closeFenceL : List Char := "\n```".data

/-! ## Exceptions and JSON values -/

/-- Exception classes distinguished by the handlers of main.py.
`forbidden` is `nextcord.Forbidden`, `http` is any other
`nextcord.errors.HTTPException`, `other` is every remaining exception
(`AttributeError`, `TypeError`, ...). -/
inductive Exc where
  | forbidden
  | http
  | other
deriving DecidableEq

/-- Whether an exception is caught by `except nextcord.errors.HTTPException`
(`Forbidden` is a subclass of `HTTPException`). -/
def Exc.isHTTP : Exc → Bool
  | .forbidden => true
  | .http => true
  | .other => false

/-- JSON values, the possible results of `json.loads`. -/
inductive JValue where
  | nul
  | bool (b : Bool)
  | num (n : Int)
  | str (s : List Char)
  | arr (elems : List JValue)
  | obj (fields : List (List Char × JValue))

/-- Whether a JSON value is an object (a Python `dict`). -/
def JValue.isObj : JValue → Bool
  | .obj _ => true
  | _ => false

/-- Python `d.get(k, dflt)`: only `dict` has the `.get` attribute, any other
value raises `AttributeError`. -/
def pyGet (v : JValue) (k : List Char) (dflt : JValue) : Except Exc JValue :=
  match v with
  | .obj fields => .ok ((fields.lookup k).getD dflt)
  | _ => .error Exc.other

/-- Python `k in d` for a `dict` `d` (only ever applied to objects in the
modelled code paths). -/
def pyHasKey (v : JValue) (k : List Char) : Bool :=
  match v with
  | .obj fields => fields.any (fun p => p.1 == k)
  | _ => false

/-- Python `d[k]` after a successful `k in d` test. -/
def pyIndex (v : JValue) (k : List Char) : JValue :=
  match v with
  | .obj fields => (fields.lookup k).getD JValue.nul
  | _ => JValue.nul

/-- Python truthiness of a JSON value. -/
def pyTruthy : JValue → Bool
  | .nul => false
  | .bool b => b
  | .num n => n != 0
  | .str s => !s.isEmpty
  | .arr xs => !xs.isEmpty
  | .obj fields => !fields.isEmpty

/-- Python `for x in v`: lists iterate elements, strings iterate their
characters, dicts iterate their keys, anything else raises `TypeError`. -/
def pyIter : JValue → Except Exc (List JValue)
  | .arr xs => .ok xs
  | .str s => .ok (s.map fun c => JValue.str [c])
  | .obj fields => .ok (fields.map fun p => JValue.str p.1)
  | _ => .error Exc.other

/-- Python `v.lower()`: only strings have `.lower`, anything else raises
`AttributeError`.  ASCII lowering matches the inputs exercised here. -/
def pyLower : JValue → Except Exc (List Char)
  | .str s => .ok (s.map Char.toLower)
  | _ => .error Exc.other

/-- Python `v != lit` where `lit` is a string literal: a non-string value is
never equal to a string. -/
def pyNeStr (v : JValue) (lit : List Char) : Bool :=
  match v with
  | .str t => t != lit
  | _ => true

/-! ## Domain data -/

/-- A channel of the target space, as enumerated by `guild.fetch_channels()`. -/
structure Channel where
  name : List Char
deriving DecidableEq

/-- A role of the target space (`guild.roles`), with the two flags tested by
the wipe step (`role.is_default()`, `role.is_integration()`). -/
structure Role where
  name : List Char
  isDefault : Bool
  isIntegration : Bool
deriving DecidableEq

/-- The target space handle: `guild.name` and `guild.roles` are attributes
read by `create_server_from_json`. -/
structure Guild where
  name : List Char
  roles : List Role

/-- A chat turn role tag as sent to the generation service. -/
inductive ChatRole where
  | system
  | user
  | assistant
deriving DecidableEq

/-- One entry of a conversation `messages` list. -/
structure Turn where
  role : ChatRole
  content : List Char
deriving DecidableEq

/-- One entry of the `user_conversations` dictionary: the message history
and the stored `guild_id`. -/
structure Conv where
  messages : List Turn
  guild_id : Nat
deriving DecidableEq

/-- The process-wide `user_conversations` dictionary, keyed by user id. -/
abbrev Sessions := List (Nat × Conv)

/-- Dictionary deletion `del user_conversations[uid]`. -/
def delSession (uid : Nat) : Sessions → Sessions
  | [] => []
  | p :: rest => if p.1 = uid then delSession uid rest else p :: delSession uid rest

/-- Dictionary assignment `user_conversations[uid] = conv`. -/
def setSession (uid : Nat) (conv : Conv) (st : Sessions) : Sessions :=
  (uid, conv) :: delSession uid st

/-! ## Observable events -/

/-- The distinct user-facing messages sent by the bot (identified, not
spelled out; each constructor corresponds to one literal `send` in main.py). -/
inductive UserMsg where
  | apology
  | rawReply (t : List Char)
  | mustBeAdmin
  | alreadyInProgress
  | sentDmConfirm
  | greeting
  | enableDMs
  | unexpectedStart
  | cannotSeeServer
  | finalConfigWait
  | jsonStructureError
  | formattedIncorrectly
  | success
  | discordApiError
  | criticalError

/-- Observable events: messages delivered to the user and mutation calls
issued against the target space (an attempt event is recorded at the moment
the call is issued, whether or not it succeeds). -/
inductive Event where
  | dm (m : UserMsg)
  | renameAttempt (v : JValue)
  | chanDeleteAttempt (c : Channel)
  | roleDeleteAttempt (r : Role)
  | roleCreateAttempt (v : JValue)
  | catCreateAttempt (v : JValue)
  | textChanCreateAttempt (v : JValue)
  | voiceChanCreateAttempt (v : JValue)

/-- Environment: outcomes of all external calls.  The outcome of
`guild.create_role` and of the two channel-creation calls is irrelevant to
control flow (each is wrapped in `try/except Exception` that only prints),
so only the attempt event is recorded for them. -/
structure Api where
  llm : List Turn → Except Exc (List Char)
  getGuild : Nat → Option Guild
  jsonParse : List Char → Option JValue
  editName : JValue → Except Exc Unit
  fetchChannels : Except Exc (List Channel)
  deleteChannel : Channel → Except Exc Unit
  deleteRole : Role → Except Exc Unit
  createCategory : JValue → Except Exc Unit

/-! ## JSON keys and literals used by the script -/

def sNameKeyL : List Char := "server_name".data
def rolesKeyL : List Char := "roles".data
def nameKeyL : List Char := "name".data
def catsKeyL : List Char := "categories".data
def chanKeyL : List Char := "channels".data
def typeKeyL : List Char := "type".data
def textL : List Char := "text".data
def voiceL : List Char := "voice".data
def everyoneL : List Char := "@everyone".data

/-! ## create_server_from_json -/

/-- Channel wipe loop: `for channel in await guild.fetch_channels():
await channel.delete(...)`.  There is no per-channel handler, so the first
failing deletion propagates and the remaining channels are not attempted. -/
def wipeChannels (env : Api) : List Channel → List Event × Option Exc
  | [] => ([], none)
  | ch :: rest =>
    match env.deleteChannel ch with
    | .ok _ =>
      match wipeChannels env rest with
      | (evs, exc) => (Event.chanDeleteAttempt ch :: evs, exc)
    | .error e => ([Event.chanDeleteAttempt ch], some e)

/-- Role wipe loop: skip default and integration roles, attempt deletion of
every other role, catching only `nextcord.Forbidden`; any other exception
propagates. -/
def wipeRoles (env : Api) : List Role → List Event × Option Exc
  | [] => ([], none)
  | r :: rest =>
    if r.isDefault || r.isIntegration then wipeRoles env rest
    else
      match env.deleteRole r with
      | .ok _ =>
        match wipeRoles env rest with
        | (evs, exc) => (Event.roleDeleteAttempt r :: evs, exc)
      | .error Exc.forbidden =>
        match wipeRoles env rest with
        | (evs, exc) => (Event.roleDeleteAttempt r :: evs, exc)
      | .error e => ([Event.roleDeleteAttempt r], some e)

/-- Role creation loop body: `role_name = role_info.get("name")` (raises on
a non-dict entry), then create unless the name is falsy or `"@everyone"`;
the `guild.create_role` call is inside `try/except Exception`, so its
outcome never alters control flow. -/
def createRoles (env : Api) : List JValue → List Event × Option Exc
  | [] => ([], none)
  | ri :: rest =>
    match pyGet ri nameKeyL JValue.nul with
    | .error e => ([], some e)
    | .ok rn =>
      if pyTruthy rn && pyNeStr rn everyoneL then
        match createRoles env rest with
        | (evs, exc) => (Event.roleCreateAttempt rn :: evs, exc)
      else createRoles env rest

/-- Channel creation loop inside one category.  Both `.get` calls and the
`.lower()` happen before the per-channel `try`, so they raise out of this
loop (to the enclosing category handler); the create calls themselves are
wrapped in `try/except Exception`.  A `channel_type` other than `"text"` or
`"voice"` matches neither branch and creates nothing. -/
def createChannels (env : Api) : List JValue → List Event × Option Exc
  | [] => ([], none)
  | ci :: rest =>
    match pyGet ci nameKeyL JValue.nul with
    | .error e => ([], some e)
    | .ok chName =>
      match pyGet ci typeKeyL (JValue.str textL) with
      | .error e => ([], some e)
      | .ok tv =>
        match pyLower tv with
        | .error e => ([], some e)
        | .ok chType =>
          if pyTruthy chName then
            match createChannels env rest with
            | (evs, exc) =>
              ((if chType == textL then [Event.textChanCreateAttempt chName]
                else if chType == voiceL then [Event.voiceChanCreateAttempt chName]
                else []) ++ evs, exc)
          else createChannels env rest

/-- Category creation loop: `category_info.get("name")` is outside the
category `try` (raises to the top), everything from `guild.create_category`
through the channel loop is inside `try/except Exception`, so a failure
there only skips the rest of that category. -/
def createCategories (env : Api) : List JValue → List Event × Option Exc
  | [] => ([], none)
  | ci :: rest =>
    match pyGet ci nameKeyL JValue.nul with
    | .error e => ([], some e)
    | .ok catName =>
      if pyTruthy catName then
        match env.createCategory catName with
        | .error _ =>
          match createCategories env rest with
          | (evs, exc) => (Event.catCreateAttempt catName :: evs, exc)
        | .ok _ =>
          match createCategories env rest with
          | (evs, exc) =>
            (Event.catCreateAttempt catName ::
              ((if pyHasKey ci chanKeyL && pyTruthy (pyIndex ci chanKeyL) then
                  match pyIter (pyIndex ci chanKeyL) with
                  | .error _ => []
                  | .ok chans => (createChannels env chans).1
                else []) ++ evs), exc)
      else createCategories env rest

/-- The `if "roles" in data and data["roles"]:` guard and iteration. -/
def rolesPhase (env : Api) (data : JValue) : List Event × Option Exc :=
  if pyHasKey data rolesKeyL && pyTruthy (pyIndex data rolesKeyL) then
    match pyIter (pyIndex data rolesKeyL) with
    | .error e => ([], some e)
    | .ok items => createRoles env items
  else ([], none)

/-- The `if "categories" in data and data["categories"]:` guard and
iteration. -/
def catsPhase (env : Api) (data : JValue) : List Event × Option Exc :=
  if pyHasKey data catsKeyL && pyTruthy (pyIndex data catsKeyL) then
    match pyIter (pyIndex data catsKeyL) with
    | .error e => ([], some e)
    | .ok items => createCategories env items
  else ([], none)

/-- Body of the big `try` of `create_server_from_json`, in source order:
rename, wipe channels, wipe roles, create roles, create categories and
channels, success notification.  The second component is the exception, if
any, escaping the `try`. -/
def csfjBody (env : Api) (data : JValue) (guild : Guild) : List Event × Option Exc :=
  match pyGet data sNameKeyL (JValue.str guild.name) with
  | .error e => ([], some e)
  | .ok sn =>
    match env.editName sn with
    | .error e => ([Event.renameAttempt sn], some e)
    | .ok _ =>
      match env.fetchChannels with
      | .error e => ([Event.renameAttempt sn], some e)
      | .ok chs =>
        match wipeChannels env chs with
        | (wcE, some e) => (Event.renameAttempt sn :: wcE, some e)
        | (wcE, none) =>
          match wipeRoles env guild.roles with
          | (wrE, some e) => (Event.renameAttempt sn :: wcE ++ wrE, some e)
          | (wrE, none) =>
            match rolesPhase env data with
            | (crE, some e) => (Event.renameAttempt sn :: wcE ++ wrE ++ crE, some e)
            | (crE, none) =>
              match catsPhase env data with
              | (ccE, some e) =>
                (Event.renameAttempt sn :: wcE ++ wrE ++ crE ++ ccE, some e)
              | (ccE, none) =>
                (Event.renameAttempt sn :: wcE ++ wrE ++ crE ++ ccE
                  ++ [Event.dm UserMsg.success], none)

/-- `create_server_from_json`: runs the body; an escaping exception is
routed to `except nextcord.errors.HTTPException` or `except Exception`,
each ending with one failure notification to the requesting user. -/
def create_server_from_json (env : Api) (data : JValue) (guild : Guild) : List Event :=
  match csfjBody env data guild with
  | (evs, none) => evs
  | (evs, some e) =>
    evs ++ [Event.dm (if e.isHTTP then UserMsg.discordApiError else UserMsg.criticalError)]

/-! ## handle_json_and_create_server -/

/-- The raw payload extraction
`ai_response.split("```json\n")[1].split("\n```")[0]`.
`none` models the `IndexError` raised when the first split produces fewer
than two parts. -/
def extractRaw (s : List Char) : Option (List Char) :=
  match pySplit openFenceL s with
  | _ :: seg :: _ => some ((pySplit closeFenceL seg).headD [])
  | _ => none

/-- `handle_json_and_create_server`: resolve the guild (a `None` handle
raises `AttributeError` on `.name`, answered with the not-visible message
and an early return before any mutation), announce the rebuild, then
extract, parse and apply, with `IndexError` and `json.JSONDecodeError`
answered by their distinct messages. -/
def handle_json_and_create_server (env : Api) (ai_response : List Char)
    (guild_id : Nat) : List Event :=
  match env.getGuild guild_id with
  | none => [Event.dm UserMsg.cannotSeeServer]
  | some guild =>
    Event.dm UserMsg.finalConfigWait ::
      (match extractRaw ai_response with
       | none => [Event.dm UserMsg.formattedIncorrectly]
       | some raw =>
         match env.jsonParse raw with
         | none => [Event.dm UserMsg.jsonStructureError]
         | some data => create_server_from_json env data guild)

/-- Classification of a reply by the extraction pipeline: the marker test
of `on_message` (line 115) combined with the split/parse of
`handle_json_and_create_server` (lines 211-212). -/
inductive ExtractResult where
  | notTerminal
  | malformedFence
  | malformedJson
  | terminal (v : JValue)

/-- `extract`: a reply without the `"```json"` marker is not terminal;
otherwise the fenced payload is located (`IndexError` gives
`malformedFence`) and parsed (`json.JSONDecodeError` gives
`malformedJson`). -/
def extract (jsonParse : List Char → Option JValue) (s : List Char) : ExtractResult :=
  if occursIn markerL s then
    match extractRaw s with
    | none => .malformedFence
    | some raw =>
      match jsonParse raw with
      | none => .malformedJson
      | some v => .terminal v
  else .notTerminal

/-! ## on_message and start_command -/

/-- `on_message` for a DM from a non-bot user: ignore users without an open
conversation; append the user turn; call the generation service; on failure
send the apology and delete the conversation; on success append the
assistant turn, and either run the terminal pipeline and then delete the
conversation (unconditionally), or forward the reply text. -/
def on_message (env : Api) (st : Sessions) (uid : Nat) (text : List Char) :
    Sessions × List Event :=
  match st.lookup uid with
  | none => (st, [])
  | some conv =>
    let conv1 : Conv := ⟨conv.messages ++ [⟨ChatRole.user, text⟩], conv.guild_id⟩
    let st1 := setSession uid conv1 st
    match env.llm conv1.messages with
    | .error _ => (delSession uid st1, [Event.dm UserMsg.apology])
    | .ok reply =>
      let conv2 : Conv := ⟨conv1.messages ++ [⟨ChatRole.assistant, reply⟩], conv1.guild_id⟩
      let st2 := setSession uid conv2 st1
      if occursIn markerL reply then
        (delSession uid st2, handle_json_and_create_server env reply conv2.guild_id)
      else
        (st2, [Event.dm (UserMsg.rawReply reply)])

/-- The fixed instruction turn stored as `messages[0]` of every new
conversation (the SYSTEM_PROMPT constant of main.py; braces and apostrophes
are hex-escaped). -/
def SYSTEM_PROMPT : List Char :=
  ("\nYou are the \"Server Architect\", a helper that helps users design a new Discord server.\n" ++
   "Your goal is to have a natural conversation with the user to gather their information on what they are looking for and then generate a single JSON object that contains the server structure.\n\n" ++
   "Your process:\n" ++
   "1.  The user will provide an initial, general idea for their server.\n" ++
   "2.  Based on their idea, you will ask for the specific details you need:\n" ++
   "    - The server\x27s name.\n" ++
   "    - The names of any roles they want.\n" ++
   "    - The names of categories and the channels within them (specifying if each channel is \x27text\x27 or \x27voice\x27).\n" ++
   "3.  Be conversational. If the user provides some details upfront, acknowledge them and ask for what\x27s missing. You don\x27t have to ask for everything in a specific order.\n" ++
   "4.  Once you are confident you have all the information required to make the server (server name, at least one role, and at least one category with a channel), and the user states they think its good, do a final review with the user.\n" ++
   "5.  After the user confirms that everything looks good, your FINAL and ONLY response must be the complete JSON object, enclosed in a ```json ... ``` code block. Do not include any other text, greetings, or explanations in that final message as this will be used to trigger a function in the program.\n\n" ++
   "**JSON Structure to follow:**\n" ++
   "\x7b\n" ++
   "  \"server_name\": \"Example Server Name\",\n" ++
   "  \"roles\": [\n" ++
   "    \x7b\"name\": \"Admin\"\x7d,\n" ++
   "    \x7b\"name\": \"Moderator\"\x7d,\n" ++
   "    \x7b\"name\": \"Member\"\x7d\n" ++
   "  ],\n" ++
   "  \"categories\": [\n" ++
   "    \x7b\n" ++
   "      \"name\": \"General\",\n" ++
   "      \"channels\": [\n" ++
   "        \x7b\"name\": \"welcome\", \"type\": \"text\"\x7d,\n" ++
   "        \x7b\"name\": \"announcements\", \"type\": \"text\"\x7d\n" ++
   "      ]\n" ++
   "    \x7d,\n" ++
   "    \x7b\n" ++
   "      \"name\": \"Voice Chats\",\n" ++
   "      \"channels\": [\n" ++
   "        \x7b\"name\": \"Lobby\", \"type\": \"voice\"\x7d,\n" ++
   "        \x7b\"name\": \"Gaming\", \"type\": \"voice\"\x7d\n" ++
   "      ]\n" ++
   "    \x7d\n" ++
   "  ]\n" ++
   "\x7d\n").data

/-- `start_command`: reject non-administrators, reject a user who already
has an open conversation (without touching the dictionary), otherwise
create the conversation with the system prompt and the invoking guild id,
confirm in the server, and open the DM; `nextcord.Forbidden` (DMs disabled)
or any other failure there tears the new conversation down again. -/
def start_command (st : Sessions) (uid : Nat) (isAdmin : Bool) (gid : Nat)
    (dmRes : Except Exc Unit) : Sessions × List Event :=
  if !isAdmin then (st, [Event.dm UserMsg.mustBeAdmin])
  else if (st.lookup uid).isSome then (st, [Event.dm UserMsg.alreadyInProgress])
  else
    let st1 := setSession uid ⟨[⟨ChatRole.system, SYSTEM_PROMPT⟩], gid⟩ st
    match dmRes with
    | .ok _ => (st1, [Event.dm UserMsg.sentDmConfirm, Event.dm UserMsg.greeting])
    | .error Exc.forbidden =>
      (delSession uid st1, [Event.dm UserMsg.sentDmConfirm, Event.dm UserMsg.enableDMs])
    | .error _ =>
      (delSession uid st1, [Event.dm UserMsg.sentDmConfirm, Event.dm UserMsg.unexpectedStart])

/-! ## Lemmas about the split machinery -/

theorem splitGo_fuel_irrel (sep : List Char) (hsep : sep ≠ []) :
    ∀ f₁ f₂ s, s.length ≤ f₁ → s.length ≤ f₂ → splitGo sep f₁ s = splitGo sep f₂ s := by
  intro f₁
  induction f₁ with
  | zero =>
    intro f₂ s h₁ _
    have hs : s = [] := List.length_eq_zero.mp (Nat.le_zero.mp h₁)
    subst hs
    cases f₂ <;> rfl
  | succ f ih =>
    intro f₂ s h₁ h₂
    cases s with
    | nil => cases f₂ <;> rfl
    | cons c cs =>
      obtain ⟨g, rfl⟩ : ∃ g, f₂ = g + 1 := by
        cases f₂ with
        | zero => exfalso; simp only [List.length_cons] at h₂; omega
        | succ g => exact ⟨g, rfl⟩
      have hsl : 1 ≤ sep.length := List.length_pos.mpr hsep
      simp only [splitGo]
      by_cases hp : sep.isPrefixOf (c :: cs) = true
      · rw [if_pos hp, if_pos hp]
        have hd : ((c :: cs).drop sep.length).length ≤ f := by
          rw [List.length_drop]
          simp only [List.length_cons] at h₁ ⊢
          omega
        have hd₂ : ((c :: cs).drop sep.length).length ≤ g := by
          rw [List.length_drop]
          simp only [List.length_cons] at h₂ ⊢
          omega
        rw [ih _ _ hd hd₂]
      · rw [if_neg hp, if_neg hp]
        have hc : cs.length ≤ f := by simp only [List.length_cons] at h₁; omega
        have hc₂ : cs.length ≤ g := by simp only [List.length_cons] at h₂; omega
        rw [ih _ _ hc hc₂]

theorem splitGo_ne_nil (sep : List Char) (f : Nat) (s : List Char) :
    splitGo sep f s ≠ [] := by
  cases s with
  | nil => cases f <;> simp [splitGo]
  | cons c cs =>
    cases f with
    | zero => simp [splitGo]
    | succ f =>
      simp only [splitGo]
      split
      · simp
      · split <;> simp

theorem splitGo_no_occurrence (sep : List Char) :
    ∀ f s, s.length ≤ f → occursIn sep s = false → splitGo sep f s = [s] := by
  intro f
  induction f with
  | zero =>
    intro s h₁ _
    have hs : s = [] := List.length_eq_zero.mp (Nat.le_zero.mp h₁)
    subst hs; rfl
  | succ f ih =>
    intro s h₁ h₂
    cases s with
    | nil => rfl
    | cons c cs =>
      simp only [occursIn, Bool.or_eq_false_iff] at h₂
      have hp : ¬ sep.isPrefixOf (c :: cs) = true := by simp [h₂.1]
      simp only [splitGo]
      rw [if_neg hp]
      rw [ih cs (by simp only [List.length_cons] at h₁; omega) h₂.2]

/-- Helper: a prefix of `x ++ y` no longer than `x` is a prefix of `x`. -/
theorem prefix_of_append_of_le {sep x y : List Char} (h : sep <+: x ++ y)
    (hlen : sep.length ≤ x.length) : sep <+: x := by
  rw [List.prefix_iff_eq_take] at h
  rw [List.take_append_eq_append_take] at h
  rw [Nat.sub_eq_zero_of_le hlen, List.take_zero, List.append_nil] at h
  rw [h]
  exact List.take_prefix _ _

/-- Main split lemma: when the first occurrence of `sep` in
`a ++ sep ++ b` is the displayed one, Python split yields `a` as the first
part followed by the split of `b`. -/
theorem splitGo_sandwich (sep : List Char) (hsep : sep ≠ []) :
    ∀ a b f, (a ++ sep ++ b).length ≤ f →
      occursIn sep (a ++ sep.dropLast) = false →
      splitGo sep f (a ++ sep ++ b) = a :: pySplit sep b := by
  intro a
  induction a with
  | nil =>
    intro b f hf hocc
    simp only [List.nil_append] at hf ⊢
    obtain ⟨f', rfl⟩ : ∃ f', f = f' + 1 := by
      cases f with
      | zero =>
        exfalso
        have := List.length_pos.mpr hsep
        simp only [List.length_append] at hf
        omega
      | succ f' => exact ⟨f', rfl⟩
    obtain ⟨sc, stail, hseq⟩ : ∃ sc stail, sep = sc :: stail := by
      cases sep with
      | nil => exact absurd rfl hsep
      | cons sc stail => exact ⟨sc, stail, rfl⟩
    have hb : b.length ≤ f' := by
      have := List.length_pos.mpr hsep
      simp only [List.length_append] at hf
      omega
    subst hseq
    have hp : (sc :: stail).isPrefixOf (sc :: (stail ++ b)) = true := by
      rw [List.isPrefixOf_iff_prefix]
      exact ⟨b, by simp⟩
    show splitGo (sc :: stail) (f' + 1) (sc :: (stail ++ b)) = [] :: pySplit (sc :: stail) b
    simp only [splitGo]
    rw [if_pos hp]
    rw [show sc :: (stail ++ b) = (sc :: stail) ++ b from rfl, List.drop_left]
    rw [splitGo_fuel_irrel _ hsep f' b.length b hb (le_refl _)]
    rfl
  | cons c a' ih =>
    intro b f hf hocc
    simp only [List.cons_append] at hf hocc ⊢
    obtain ⟨f', rfl⟩ : ∃ f', f = f' + 1 := by
      cases f with
      | zero => exfalso; simp only [List.length_cons] at hf; omega
      | succ f' => exact ⟨f', rfl⟩
    simp only [occursIn, Bool.or_eq_false_iff] at hocc
    have hlast : sep.dropLast ++ [sep.getLast hsep] = sep :=
      List.dropLast_append_getLast hsep
    have hp : ¬ sep.isPrefixOf (c :: (a' ++ sep ++ b)) = true := by
      intro hcontra
      rw [List.isPrefixOf_iff_prefix] at hcontra
      have hdecomp : c :: (a' ++ sep ++ b)
          = (c :: (a' ++ sep.dropLast)) ++ (sep.getLast hsep :: b) := by
        conv_lhs => rw [← hlast]
        simp [List.append_assoc]
      rw [hdecomp] at hcontra
      have hlen : sep.length ≤ (c :: (a' ++ sep.dropLast)).length := by
        have h1 : 1 ≤ sep.length := List.length_pos.mpr hsep
        simp only [List.length_cons, List.length_append, List.length_dropLast]
        omega
      have := (List.isPrefixOf_iff_prefix).mpr (prefix_of_append_of_le hcontra hlen)
      rw [this] at hocc
      exact absurd hocc.1 (by simp)
    have hf' : (a' ++ sep ++ b).length ≤ f' := by
      simp only [List.length_cons, List.length_append] at hf ⊢
      omega
    show splitGo sep (f' + 1) (c :: (a' ++ sep ++ b)) = (c :: a') :: pySplit sep b
    simp only [splitGo]
    rw [if_neg hp]
    rw [ih b f' hf' hocc.2]

/-- Wrapper of the sandwich lemma at exactly-enough fuel. -/
theorem pySplit_sandwich (sep : List Char) (hsep : sep ≠ []) (a b : List Char)
    (hocc : occursIn sep (a ++ sep.dropLast) = false) :
    pySplit sep (a ++ sep ++ b) = a :: pySplit sep b :=
  splitGo_sandwich sep hsep a b _ (le_refl _) hocc

/-- A string with no occurrence of `sep` splits into itself alone. -/
theorem pySplit_no_occurrence (sep s : List Char) (hocc : occursIn sep s = false) :
    pySplit sep s = [s] :=
  splitGo_no_occurrence sep s.length s (le_refl _) hocc

/-- A string with `sep` as a prefix of its suffix contains `sep`. -/
theorem occursIn_of_isPrefixOf (sep rest : List Char) (h : sep.isPrefixOf rest = true) :
    ∀ a, occursIn sep (a ++ rest) = true := by
  intro a
  induction a with
  | nil =>
    simp only [List.nil_append]
    cases rest with
    | nil =>
      cases sep with
      | nil => rfl
      | cons x xs => simp [List.isPrefixOf] at h
    | cons r rs => simp [occursIn, h]
  | cons x xs ih =>
    rw [List.cons_append]
    simp only [occursIn, ih, Bool.or_true]

/-- Deleting a key makes subsequent lookup of that key fail. -/
theorem lookup_delSession (uid : Nat) (st : Sessions) :
    (delSession uid st).lookup uid = none := by
  induction st with
  | nil => rfl
  | cons p rest ih =>
    obtain ⟨k, v⟩ := p
    simp only [delSession]
    by_cases h : k = uid
    · rw [if_pos h]; exact ih
    · rw [if_neg h]
      simp only [List.lookup]
      have hne : (uid == k) = false := by
        simp only [beq_eq_false_iff_ne, ne_eq]
        exact fun hh => h hh.symm
      rw [hne]
      exact ih

/-! ## Trace-shape lemmas for create_server_from_json -/

theorem roleDel_not_mem_wipeChannels (env : Api) (r : Role) :
    ∀ l, Event.roleDeleteAttempt r ∉ (wipeChannels env l).1 := by
  intro l
  induction l with
  | nil => simp [wipeChannels]
  | cons ch rest ih =>
    rcases hw : wipeChannels env rest with ⟨evs, exc⟩
    rw [hw] at ih
    cases hd : env.deleteChannel ch with
    | ok u =>
      simp only [wipeChannels, hd, hw]
      intro hmem
      rcases List.mem_cons.mp hmem with h | h
      · exact Event.noConfusion h
      · exact ih h
    | error e =>
      simp only [wipeChannels, hd]
      intro hmem
      rcases List.mem_cons.mp hmem with h | h
      · exact Event.noConfusion h
      · simp at h

theorem mem_wipeRoles (env : Api) (r : Role) :
    ∀ l, Event.roleDeleteAttempt r ∈ (wipeRoles env l).1 →
      r.isDefault = false ∧ r.isIntegration = false := by
  intro l
  induction l with
  | nil => simp [wipeRoles]
  | cons x rest ih =>
    intro hmem
    by_cases hx : (x.isDefault || x.isIntegration) = true
    · rw [wipeRoles, if_pos hx] at hmem
      exact ih hmem
    · have hx' := Bool.or_eq_false_iff.mp (Bool.eq_false_iff.mpr hx)
      rw [wipeRoles, if_neg hx] at hmem
      cases hd : env.deleteRole x with
      | ok u =>
        rw [hd] at hmem
        rcases hw : wipeRoles env rest with ⟨evs, exc⟩
        rw [hw] at hmem ih
        rcases List.mem_cons.mp hmem with h | h
        · obtain rfl : r = x := by injection h
          exact hx'
        · exact ih h
      | error e =>
        rw [hd] at hmem
        cases e with
        | forbidden =>
          rcases hw : wipeRoles env rest with ⟨evs, exc⟩
          rw [hw] at hmem ih
          rcases List.mem_cons.mp hmem with h | h
          · obtain rfl : r = x := by injection h
            exact hx'
          · exact ih h
        | http =>
          rcases List.mem_cons.mp hmem with h | h
          · obtain rfl : r = x := by injection h
            exact hx'
          · simp at h
        | other =>
          rcases List.mem_cons.mp hmem with h | h
          · obtain rfl : r = x := by injection h
            exact hx'
          · simp at h

theorem roleDel_not_mem_createRoles (env : Api) (r : Role) :
    ∀ l, Event.roleDeleteAttempt r ∉ (createRoles env l).1 := by
  intro l
  induction l with
  | nil => simp [createRoles]
  | cons ri rest ih =>
    cases hg : pyGet ri nameKeyL JValue.nul with
    | error e => simp [createRoles, hg]
    | ok rn =>
      rcases hw : createRoles env rest with ⟨evs, exc⟩
      rw [hw] at ih
      by_cases ht : (pyTruthy rn && pyNeStr rn everyoneL) = true
      · simp only [createRoles, hg, hw, if_pos ht]
        intro hmem
        rcases List.mem_cons.mp hmem with h | h
        · exact Event.noConfusion h
        · exact ih h
      · simp only [createRoles, hg, hw, if_neg ht]
        exact ih

theorem roleDel_not_mem_createChannels (env : Api) (r : Role) :
    ∀ l, Event.roleDeleteAttempt r ∉ (createChannels env l).1 := by
  intro l
  induction l with
  | nil => simp [createChannels]
  | cons ci rest ih =>
    cases hg : pyGet ci nameKeyL JValue.nul with
    | error e => simp [createChannels, hg]
    | ok chName =>
      cases hg2 : pyGet ci typeKeyL (JValue.str textL) with
      | error e => simp [createChannels, hg, hg2]
      | ok tv =>
        cases hg3 : pyLower tv with
        | error e => simp [createChannels, hg, hg2, hg3]
        | ok chType =>
          rcases hw : createChannels env rest with ⟨evs, exc⟩
          rw [hw] at ih
          by_cases ht : pyTruthy chName = true
          · simp only [createChannels, hg, hg2, hg3, hw, if_pos ht]
            intro hmem
            rcases List.mem_append.mp hmem with h | h
            · split at h
              · exact Event.noConfusion (List.mem_singleton.mp h)
              · split at h
                · exact Event.noConfusion (List.mem_singleton.mp h)
                · simp at h
            · exact ih h
          · simp only [createChannels, hg, hg2, hg3, hw, if_neg ht]
            exact ih

theorem roleDel_not_mem_createCategories (env : Api) (r : Role) :
    ∀ l, Event.roleDeleteAttempt r ∉ (createCategories env l).1 := by
  intro l
  induction l with
  | nil => simp [createCategories]
  | cons ci rest ih =>
    cases hg : pyGet ci nameKeyL JValue.nul with
    | error e => simp [createCategories, hg]
    | ok catName =>
      rcases hw : createCategories env rest with ⟨evs, exc⟩
      rw [hw] at ih
      by_cases ht : pyTruthy catName = true
      · cases hc : env.createCategory catName with
        | error e =>
          simp only [createCategories, hg, hw, if_pos ht, hc]
          intro hmem
          rcases List.mem_cons.mp hmem with h | h
          · exact Event.noConfusion h
          · exact ih h
        | ok u =>
          simp only [createCategories, hg, hw, if_pos ht, hc]
          intro hmem
          rcases List.mem_cons.mp hmem with h | h
          · exact Event.noConfusion h
          · rcases List.mem_append.mp h with h2 | h2
            · split at h2
              · split at h2
                · exact absurd h2 (by simp)
                · exact roleDel_not_mem_createChannels env r _ h2
              · simp at h2
            · exact ih h2
      · simp only [createCategories, hg, hw, if_neg ht]
        exact ih

theorem roleDel_not_mem_rolesPhase (env : Api) (r : Role) (data : JValue) :
    Event.roleDeleteAttempt r ∉ (rolesPhase env data).1 := by
  unfold rolesPhase
  split
  · split
    · simp
    · exact roleDel_not_mem_createRoles env r _
  · simp

theorem roleDel_not_mem_catsPhase (env : Api) (r : Role) (data : JValue) :
    Event.roleDeleteAttempt r ∉ (catsPhase env data).1 := by
  unfold catsPhase
  split
  · split
    · simp
    · exact roleDel_not_mem_createCategories env r _
  · simp

/-! ## Concrete environments and fixtures for witnesses -/

/-- An environment in which every external call succeeds, the generation
service returns an empty reply, no guild resolves and nothing parses as
JSON; individual witnesses override the fields they exercise. -/
def okApi : Api where
  llm := fun _ => .ok []
  getGuild := fun _ => none
  jsonParse := fun _ => none
  editName := fun _ => .ok ()
  fetchChannels := .ok []
  deleteChannel := fun _ => .ok ()
  deleteRole := fun _ => .ok ()
  createCategory := fun _ => .ok ()

def guildG : Guild := ⟨ "G".data, []⟩

def convW : Conv := ⟨[], 7⟩

def chanA : Channel := ⟨ "a".data⟩

def chanB : Channel := ⟨ "b".data⟩

def chanC : Channel := ⟨ "c".data⟩

def roleEveryone : Role := ⟨ "@everyone".data, true, false⟩

def roleBot : Role := ⟨ "Bot".data, false, true⟩

def roleOld : Role := ⟨ "Old".data, false, false⟩

def guildW : Guild := ⟨ "GW".data, [roleEveryone, roleBot, roleOld]⟩

/-! ## Claim theorems -/

/-- C9: during the role-wipe (and in fact anywhere in the apply procedure),
a deletion call is issued for a role only if it is neither the implicit
default role nor integration-managed: any role-delete attempt appearing in
the trace of `create_server_from_json` is on a non-default,
non-integration role. -/
theorem wipe_preserves_default_and_integration_roles (env : Api) (data : JValue)
    (guild : Guild) (r : Role)
    (h : Event.roleDeleteAttempt r ∈ create_server_from_json env data guild) :
    r.isDefault = false ∧ r.isIntegration = false := by
  have hbody : Event.roleDeleteAttempt r ∈ (csfjBody env data guild).1 := by
    unfold create_server_from_json at h
    split at h
    · next evs heq => rw [heq]; exact h
    · next evs e heq =>
      rw [heq]
      rcases List.mem_append.mp h with h2 | h2
      · exact h2
      · exact absurd (List.mem_singleton.mp h2) (by simp)
  clear h
  unfold csfjBody at hbody
  split at hbody
  · simp at hbody
  · split at hbody
    · simp at hbody
    · split at hbody
      · simp at hbody
      · rename_i sn hsn u heu chs hchs
        split at hbody
        · rename_i wcE e heqwc
          rcases List.mem_cons.mp hbody with h | h
          · exact Event.noConfusion h
          · have hwc := roleDel_not_mem_wipeChannels env r chs
            rw [heqwc] at hwc
            exact absurd h hwc
        · rename_i wcE heqwc
          split at hbody
          · rename_i wrE e heqwr
            rcases List.mem_cons.mp hbody with h | h
            · exact Event.noConfusion h
            · rcases List.mem_append.mp h with h2 | h2
              · have hwc := roleDel_not_mem_wipeChannels env r chs
                rw [heqwc] at hwc
                exact absurd h2 hwc
              · have hwr := mem_wipeRoles env r guild.roles
                rw [heqwr] at hwr
                exact hwr h2
          · rename_i wrE heqwr
            split at hbody
            · rename_i crE e heqcr
              rcases List.mem_cons.mp hbody with h | h
              · exact Event.noConfusion h
              · simp only [List.append_eq, List.mem_append] at h
                rcases h with (h2 | h2) | h2
                · have hwc := roleDel_not_mem_wipeChannels env r chs
                  rw [heqwc] at hwc
                  exact absurd h2 hwc
                · have hwr := mem_wipeRoles env r guild.roles
                  rw [heqwr] at hwr
                  exact hwr h2
                · have hcr := roleDel_not_mem_rolesPhase env r data
                  rw [heqcr] at hcr
                  exact absurd h2 hcr
            · rename_i crE heqcr
              split at hbody
              · rename_i ccE e heqcc
                rcases List.mem_cons.mp hbody with h | h
                · exact Event.noConfusion h
                · simp only [List.append_eq, List.mem_append] at h
                  rcases h with ((h2 | h2) | h2) | h2
                  · have hwc := roleDel_not_mem_wipeChannels env r chs
                    rw [heqwc] at hwc
                    exact absurd h2 hwc
                  · have hwr := mem_wipeRoles env r guild.roles
                    rw [heqwr] at hwr
                    exact hwr h2
                  · have hcr := roleDel_not_mem_rolesPhase env r data
                    rw [heqcr] at hcr
                    exact absurd h2 hcr
                  · have hcc := roleDel_not_mem_catsPhase env r data
                    rw [heqcc] at hcc
                    exact absurd h2 hcc
              · rename_i ccE heqcc
                rcases List.mem_cons.mp hbody with h | h
                · exact Event.noConfusion h
                · simp only [List.append_eq, List.mem_append] at h
                  rcases h with (((h2 | h2) | h2) | h2) | h2
                  · have hwc := roleDel_not_mem_wipeChannels env r chs
                    rw [heqwc] at hwc
                    exact absurd h2 hwc
                  · have hwr := mem_wipeRoles env r guild.roles
                    rw [heqwr] at hwr
                    exact hwr h2
                  · have hcr := roleDel_not_mem_rolesPhase env r data
                    rw [heqcr] at hcr
                    exact absurd h2 hcr
                  · have hcc := roleDel_not_mem_catsPhase env r data
                    rw [heqcc] at hcc
                    exact absurd h2 hcc
                  · exact absurd (List.mem_singleton.mp h2) (by simp)

/-- Witness for C9: in a concrete run that does delete the ordinary role
`roleOld`, the theorem applies and certifies the deleted role is neither
default nor integration-managed. -/
theorem wipe_preserves_default_and_integration_roles_witness :
    roleOld.isDefault = false ∧ roleOld.isIntegration = false :=
  wipe_preserves_default_and_integration_roles okApi (JValue.obj []) guildW roleOld
    (by
      rw [show create_server_from_json okApi (JValue.obj []) guildW
          = [Event.renameAttempt (JValue.str "GW".data),
             Event.roleDeleteAttempt roleOld,
             Event.dm UserMsg.success] from rfl]
      exact List.mem_cons_of_mem _ (List.mem_cons_self _ _))

/-- C5: a reply without the `"```json"` marker is classified as not
terminal; when the marker is present, a reply of the shape
`prelude ++ "```json\n" ++ payload ++ "\n```" ++ postlude` (the displayed
opening fence being the first occurrence of the opening fence, and the
displayed closing fence the first one following the payload) has exactly
`payload` extracted — prelude and postlude are ignored — and that payload
is what the JSON parser receives. -/
theorem extract_correctness :
    (∀ (jp : List Char → Option JValue) (s : List Char),
        occursIn markerL s = false → extract jp s = ExtractResult.notTerminal)
  ∧ (∀ (jp : List Char → Option JValue) (prelude payload postlude : List Char),
        occursIn openFenceL (prelude ++ openFenceL.dropLast) = false →
        occursIn openFenceL (payload ++ closeFenceL ++ postlude) = false →
        occursIn closeFenceL (payload ++ closeFenceL.dropLast) = false →
        extractRaw (prelude ++ openFenceL ++ payload ++ closeFenceL ++ postlude)
            = some payload
        ∧ extract jp (prelude ++ openFenceL ++ payload ++ closeFenceL ++ postlude)
            = (match jp payload with
               | none => ExtractResult.malformedJson
               | some v => ExtractResult.terminal v)) := by
  constructor
  · intro jp s hm
    unfold extract
    rw [if_neg (by simp [hm])]
  · intro jp prelude payload postlude h1 h2 h3
    have hassoc : prelude ++ openFenceL ++ payload ++ closeFenceL ++ postlude
        = prelude ++ openFenceL ++ (payload ++ closeFenceL ++ postlude) := by
      simp [List.append_assoc]
    have hsplit1 : pySplit openFenceL
        (prelude ++ openFenceL ++ (payload ++ closeFenceL ++ postlude))
        = prelude :: pySplit openFenceL (payload ++ closeFenceL ++ postlude) :=
      pySplit_sandwich openFenceL (by decide) prelude _ h1
    have hsplit2 : pySplit openFenceL (payload ++ closeFenceL ++ postlude)
        = [payload ++ closeFenceL ++ postlude] :=
      pySplit_no_occurrence _ _ h2
    have hsplit3 : pySplit closeFenceL (payload ++ closeFenceL ++ postlude)
        = payload :: pySplit closeFenceL postlude :=
      pySplit_sandwich closeFenceL (by decide) payload postlude h3
    have hraw : extractRaw (prelude ++ openFenceL ++ payload ++ closeFenceL ++ postlude)
        = some payload := by
      rw [hassoc]
      unfold extractRaw
      rw [hsplit1, hsplit2]
      show some ((pySplit closeFenceL (payload ++ closeFenceL ++ postlude)).headD [])
          = some payload
      rw [hsplit3]
      rfl
    refine ⟨hraw, ?_⟩
    have hmarker : occursIn markerL
        (prelude ++ openFenceL ++ payload ++ closeFenceL ++ postlude) = true := by
      rw [hassoc, List.append_assoc]
      have hpm : markerL <+: openFenceL := ( List.isPrefixOf_iff_prefix).mp (by decide)
      have hp2 : markerL <+: openFenceL ++ (payload ++ closeFenceL ++ postlude) :=
        hpm.trans (List.prefix_append _ _)
      exact occursIn_of_isPrefixOf markerL _ (( List.isPrefixOf_iff_prefix).mpr hp2) prelude
    unfold extract
    rw [if_pos hmarker, hraw]

/-- Witness for C5, at a concrete non-terminal reply and a concrete
terminal reply with prose around the fenced block. -/
theorem extract_correctness_witness :
    occursIn markerL "hello".data = false ∧
    extract (fun _ => some JValue.nul) "hello".data = ExtractResult.notTerminal ∧
    occursIn openFenceL ( "prelude ".data ++ openFenceL.dropLast) = false ∧
    occursIn openFenceL ( "\x7b\"a\": 1\x7d".data ++ closeFenceL ++ " postlude".data) = false ∧
    occursIn closeFenceL ( "\x7b\"a\": 1\x7d".data ++ closeFenceL.dropLast) = false ∧
    extractRaw ( "prelude ".data ++ openFenceL ++ "\x7b\"a\": 1\x7d".data
        ++ closeFenceL ++ " postlude".data) = some "\x7b\"a\": 1\x7d".data ∧
    extract (fun _ => some JValue.nul)
        ( "prelude ".data ++ openFenceL ++ "\x7b\"a\": 1\x7d".data
          ++ closeFenceL ++ " postlude".data)
      = ExtractResult.terminal JValue.nul := by
  refine ⟨by decide, extract_correctness.1 _ _ (by decide),
    by decide, by decide, by decide, ?_, ?_⟩
  · exact (extract_correctness.2 (fun _ => some JValue.nul) _ _ _
      (by decide) (by decide) (by decide)).1
  · exact (extract_correctness.2 (fun _ => some JValue.nul) _ _ _
      (by decide) (by decide) (by decide)).2

/-- C6: a start invocation by an administrator who already has an open
conversation is rejected with the already-in-progress message, the
dictionary is returned unchanged, and the existing conversation (its
messages and stored guild id) is still there untouched. -/
theorem duplicate_start_rejected (st : Sessions) (uid gid : Nat) (conv : Conv)
    (dmRes : Except Exc Unit) (h : st.lookup uid = some conv) :
    start_command st uid true gid dmRes = (st, [Event.dm UserMsg.alreadyInProgress]) ∧
    (start_command st uid true gid dmRes).1.lookup uid = some conv := by
  have h2 : (st.lookup uid).isSome = true := by rw [h]; rfl
  have hmain : start_command st uid true gid dmRes
      = (st, [Event.dm UserMsg.alreadyInProgress]) := by
    unfold start_command
    rw [if_neg (by simp), if_pos h2]
  exact ⟨hmain, by rw [hmain]; exact h⟩

/-- Witness for C6 at a concrete one-entry session table. -/
theorem duplicate_start_rejected_witness :
    start_command [(3, convW)] 3 true 7 (Except.ok ())
      = ([(3, convW)], [Event.dm UserMsg.alreadyInProgress]) ∧
    (start_command [(3, convW)] 3 true 7 (Except.ok ())).1.lookup 3 = some convW :=
  duplicate_start_rejected [(3, convW)] 3 7 convW (Except.ok ()) rfl

/-- C7: when the generation-service call fails (any exception, including a
timeout), the user receives the generic apology and the conversation is
deleted, so no session exists for that user afterwards. -/
theorem llm_failure_apology_ends_session (env : Api) (st : Sessions) (uid : Nat)
    (text : List Char) (conv : Conv) (e : Exc)
    (h : st.lookup uid = some conv)
    (hl : env.llm (conv.messages ++ [⟨ChatRole.user, text⟩]) = .error e) :
    (on_message env st uid text).2 = [Event.dm UserMsg.apology] ∧
    (on_message env st uid text).1.lookup uid = none := by
  have hom : on_message env st uid text
      = (delSession uid (setSession uid
            ⟨conv.messages ++ [⟨ChatRole.user, text⟩], conv.guild_id⟩ st),
         [Event.dm UserMsg.apology]) := by
    unfold on_message
    rw [h]
    dsimp only
    rw [hl]
  rw [hom]
  exact ⟨rfl, lookup_delSession uid _⟩

def envLlmFail : Api := { okApi with llm := fun _ => .error Exc.http }

/-- Witness for C7 with a concrete failing generation call. -/
theorem llm_failure_apology_ends_session_witness :
    (on_message envLlmFail [(2, convW)] 2 "hi".data).2 = [Event.dm UserMsg.apology] ∧
    (on_message envLlmFail [(2, convW)] 2 "hi".data).1.lookup 2 = none :=
  llm_failure_apology_ends_session envLlmFail [(2, convW)] 2 "hi".data convW
    Exc.http rfl rfl

/-- C8: when no live guild handle resolves at apply time, the user is told
the space is no longer visible and the procedure returns before issuing
any mutation call (the trace is exactly that one message). -/
theorem unreachable_guild_aborts (env : Api) (s : List Char) (gid : Nat)
    (h : env.getGuild gid = none) :
    handle_json_and_create_server env s gid = [Event.dm UserMsg.cannotSeeServer] := by
  unfold handle_json_and_create_server
  rw [h]

/-- Witness for C8 with a concrete unresolvable guild id. -/
theorem unreachable_guild_aborts_witness :
    handle_json_and_create_server okApi "```json\n\x7b\x7d\n```".data 9
      = [Event.dm UserMsg.cannotSeeServer] :=
  unreachable_guild_aborts okApi "```json\n\x7b\x7d\n```".data 9 rfl

def badReply : List Char := "```json\n\x7b bad\n```".data

def noFenceReply : List Char := "```json but no newline fence".data

def envC1 : Api := { okApi with
  llm := fun _ => Except.ok badReply
  getGuild := fun _ => some guildG }

def envC1b : Api := { okApi with
  llm := fun _ => Except.ok noFenceReply
  getGuild := fun _ => some guildG }

/-- C1 (code bug): on a terminal-marked reply with a malformed payload the
user does receive the sub-case-specific message (unparsable JSON in the
first run, unlocatable fence in the second), but `on_message` then deletes
the conversation unconditionally, so the Session does NOT remain open: the
lookup after the handler returns none in both sub-cases. -/
theorem malformed_payload_ends_session :
    (on_message envC1 [(1, ⟨[], 5⟩)] 1 "done".data).2
      = [Event.dm UserMsg.finalConfigWait, Event.dm UserMsg.jsonStructureError] ∧
    (on_message envC1 [(1, ⟨[], 5⟩)] 1 "done".data).1.lookup 1 = none ∧
    (on_message envC1b [(1, ⟨[], 5⟩)] 1 "done".data).2
      = [Event.dm UserMsg.finalConfigWait, Event.dm UserMsg.formattedIncorrectly] ∧
    (on_message envC1b [(1, ⟨[], 5⟩)] 1 "done".data).1.lookup 1 = none :=
  ⟨rfl, rfl, rfl, rfl⟩

def envRenameFail : Api := { okApi with
  editName := fun _ => Except.error Exc.http
  fetchChannels := Except.ok [chanA] }

/-- C2 counterexample: with one channel present and the rename call
failing, the whole apply run consists of the rename attempt and the
failure notification — no channel-deletion attempt follows, so the
procedure does not proceed to the wipe and creation steps. -/
theorem rename_failure_counterexample :
    create_server_from_json envRenameFail (JValue.obj []) guildG
      = [Event.renameAttempt (JValue.str "G".data), Event.dm UserMsg.discordApiError] ∧
    Event.chanDeleteAttempt chanA ∉
      create_server_from_json envRenameFail (JValue.obj []) guildG := by
  refine ⟨rfl, ?_⟩
  intro hmem
  rw [show create_server_from_json envRenameFail (JValue.obj []) guildG
      = [Event.renameAttempt (JValue.str "G".data), Event.dm UserMsg.discordApiError]
      from rfl] at hmem
  rcases List.mem_cons.mp hmem with h | h
  · exact Event.noConfusion h
  · exact Event.noConfusion (List.mem_singleton.mp h)

/-- C2 amended: a failure of the rename call is fatal — the exception
escapes to the top-level handler, the channel wipe, role wipe and creation
steps are all skipped, and the trace is exactly the rename attempt
followed by the single failure notification. -/
theorem rename_failure_is_fatal (env : Api) (fs : List (List Char × JValue))
    (guild : Guild) (e : Exc)
    (h : env.editName ((fs.lookup sNameKeyL).getD (JValue.str guild.name))
      = Except.error e) :
    create_server_from_json env (JValue.obj fs) guild
      = [Event.renameAttempt ((fs.lookup sNameKeyL).getD (JValue.str guild.name)),
         Event.dm (if e.isHTTP then UserMsg.discordApiError else UserMsg.criticalError)] := by
  unfold create_server_from_json csfjBody
  rw [show pyGet (JValue.obj fs) sNameKeyL (JValue.str guild.name)
      = Except.ok ((fs.lookup sNameKeyL).getD (JValue.str guild.name)) from rfl]
  dsimp only
  rw [h]
  rfl

/-- Witness for the amended C2 at a concrete failing rename. -/
theorem rename_failure_is_fatal_witness :
    create_server_from_json envRenameFail (JValue.obj []) guildG
      = [Event.renameAttempt ((([] : List (List Char × JValue)).lookup sNameKeyL).getD
           (JValue.str guildG.name)),
         Event.dm (if Exc.http.isHTTP then UserMsg.discordApiError
           else UserMsg.criticalError)] :=
  rename_failure_is_fatal envRenameFail [] guildG Exc.http rfl

def envDelFail : Api := { okApi with
  deleteChannel := fun ch => if ch = chanB then Except.error Exc.http else Except.ok ()
  fetchChannels := Except.ok [chanA, chanB, chanC] }

/-- C3 counterexample: with three channels where deletion of the second
fails, the trace shows deletion attempts on the first two only and then
the failure notification: the third channel is never attempted, so a
per-channel failure does stop the wipe. -/
theorem channel_wipe_abort_counterexample :
    create_server_from_json envDelFail (JValue.obj []) guildG
      = [Event.renameAttempt (JValue.str "G".data),
         Event.chanDeleteAttempt chanA, Event.chanDeleteAttempt chanB,
         Event.dm UserMsg.discordApiError] ∧
    Event.chanDeleteAttempt chanC ∉
      create_server_from_json envDelFail (JValue.obj []) guildG := by
  refine ⟨rfl, ?_⟩
  intro hmem
  rw [show create_server_from_json envDelFail (JValue.obj []) guildG
      = [Event.renameAttempt (JValue.str "G".data),
         Event.chanDeleteAttempt chanA, Event.chanDeleteAttempt chanB,
         Event.dm UserMsg.discordApiError] from rfl] at hmem
  rcases List.mem_cons.mp hmem with h | h
  · exact Event.noConfusion h
  rcases List.mem_cons.mp h with h2 | h2
  · injection h2 with h3
    exact absurd h3 (by decide)
  rcases List.mem_cons.mp h2 with h4 | h4
  · injection h4 with h5
    exact absurd h5 (by decide)
  · exact Event.noConfusion (List.mem_singleton.mp h4)

/-- C3 amended: the channel wipe has no per-channel handler; deletions are
attempted in order until the first failure, whose exception propagates:
the attempted channels are exactly the successful prefix plus the failing
one, the remaining channels are not attempted, and the exception escapes
the loop. -/
theorem channel_wipe_stops_at_first_failure (env : Api) (e : Exc)
    (pre post : List Channel) (c : Channel)
    (hpre : ∀ x ∈ pre, env.deleteChannel x = Except.ok ())
    (hc : env.deleteChannel c = Except.error e) :
    wipeChannels env (pre ++ c :: post)
      = ((pre ++ [c]).map Event.chanDeleteAttempt, some e) := by
  induction pre with
  | nil =>
    simp only [List.nil_append]
    rw [wipeChannels, hc]
    rfl
  | cons x xs ih =>
    have hx : env.deleteChannel x = Except.ok () := hpre x (List.mem_cons_self _ _)
    have ih2 := ih (fun y hy => hpre y (List.mem_cons_of_mem _ hy))
    rw [List.cons_append, wipeChannels, hx, ih2]
    rfl

/-- Witness for the amended C3: first channel deletes fine, second fails,
third is dropped. -/
theorem channel_wipe_stops_at_first_failure_witness :
    wipeChannels envDelFail ([chanA] ++ chanB :: [chanC])
      = (([chanA] ++ [chanB]).map Event.chanDeleteAttempt, some Exc.http) :=
  channel_wipe_stops_at_first_failure envDelFail Exc.http [chanA] [chanC] chanB
    (by
      intro x hx
      rw [List.mem_singleton.mp hx]
      rfl)
    rfl

/-- C4 counterexample: a channel entry with the unrecognized kind
`"forum"` produces no creation attempt at all — it is not defaulted to a
text channel. -/
theorem unknown_channel_kind_counterexample :
    createChannels okApi
        [JValue.obj [(nameKeyL, JValue.str "general".data),
                     (typeKeyL, JValue.str "forum".data)]]
      = ([], none) ∧
    Event.textChanCreateAttempt (JValue.str "general".data) ∉
      (createChannels okApi
        [JValue.obj [(nameKeyL, JValue.str "general".data),
                     (typeKeyL, JValue.str "forum".data)]]).1 := by
  refine ⟨rfl, ?_⟩
  intro hmem
  rw [show (createChannels okApi
      [JValue.obj [(nameKeyL, JValue.str "general".data),
                   (typeKeyL, JValue.str "forum".data)]]).1 = [] from rfl] at hmem
  exact List.not_mem_nil _ hmem

/-- C4 amended: the channel kind is lowercased before dispatch, so
`"text"` in any letter case (or a missing kind, which defaults to
`"text"`) yields a text-channel creation and `"voice"` in any letter case
a voice-channel creation, but an unrecognized kind matches neither branch
and the entry is silently skipped: no channel is created for it. -/
theorem channel_kind_dispatch (env : Api) (n : JValue) (t : List Char)
    (hn : pyTruthy n = true) :
    createChannels env [JValue.obj [(nameKeyL, n), (typeKeyL, JValue.str t)]]
      = ((if t.map Char.toLower == textL then [Event.textChanCreateAttempt n]
          else if t.map Char.toLower == voiceL then [Event.voiceChanCreateAttempt n]
          else []), none) ∧
    createChannels env [JValue.obj [(nameKeyL, n)]]
      = ([Event.textChanCreateAttempt n], none) := by
  constructor
  · show (if pyTruthy n = true then
            ((if t.map Char.toLower == textL then [Event.textChanCreateAttempt n]
              else if t.map Char.toLower == voiceL then [Event.voiceChanCreateAttempt n]
              else []) ++ [], (none : Option Exc))
          else ([], none)) = _
    rw [if_pos hn, List.append_nil]
  · show (if pyTruthy n = true then
            ([Event.textChanCreateAttempt n] ++ [], (none : Option Exc))
          else ([], none)) = _
    rw [if_pos hn]
    rfl

/-- Witness for the amended C4: uppercase TEXT, mixed-case Voice, and a
missing kind, on concrete channel entries. -/
theorem channel_kind_dispatch_witness :
    pyTruthy (JValue.str "general".data) = true ∧
    createChannels okApi
        [JValue.obj [(nameKeyL, JValue.str "general".data),
                     (typeKeyL, JValue.str "TEXT".data)]]
      = ([Event.textChanCreateAttempt (JValue.str "general".data)], none) ∧
    createChannels okApi
        [JValue.obj [(nameKeyL, JValue.str "lobby".data),
                     (typeKeyL, JValue.str "Voice".data)]]
      = ([Event.voiceChanCreateAttempt (JValue.str "lobby".data)], none) ∧
    createChannels okApi [JValue.obj [(nameKeyL, JValue.str "general".data)]]
      = ([Event.textChanCreateAttempt (JValue.str "general".data)], none) := by
  refine ⟨rfl, ?_, ?_, ?_⟩
  · rw [(channel_kind_dispatch okApi (JValue.str "general".data) "TEXT".data rfl).1]
    rfl
  · rw [(channel_kind_dispatch okApi (JValue.str "lobby".data) "Voice".data rfl).1]
    rfl
  · exact (channel_kind_dispatch okApi (JValue.str "general".data) "TEXT".data rfl).2

/-- C10: the extractor does not check that the parsed payload is an
object; a successfully parsed non-object value is handed to
`create_server_from_json`, whose first `.get` raises `AttributeError`,
caught by the generic `except Exception` there — the user gets the
critical/unexpected-error message, not one of the malformed-payload
messages. -/
theorem non_object_payload_critical_error (env : Api) (s raw : List Char)
    (gid : Nat) (guild : Guild) (v : JValue)
    (hg : env.getGuild gid = some guild)
    (he : extractRaw s = some raw)
    (hp : env.jsonParse raw = some v)
    (hv : v.isObj = false) :
    handle_json_and_create_server env s gid
      = [Event.dm UserMsg.finalConfigWait, Event.dm UserMsg.criticalError] := by
  unfold handle_json_and_create_server
  rw [hg]
  dsimp only
  rw [he]
  dsimp only
  rw [hp]
  cases v with
  | obj fields => simp [JValue.isObj] at hv
  | nul => rfl
  | bool b => rfl
  | num n => rfl
  | str t => rfl
  | arr xs => rfl

def arrReply : List Char := "```json\n[1]\n```".data

def envC10 : Api := { okApi with
  getGuild := fun _ => some guildG
  jsonParse := fun _ => some (JValue.arr [JValue.num 1]) }

/-- Witness for C10: a fenced payload parsing to the JSON array `[1]`. -/
theorem non_object_payload_critical_error_witness :
    handle_json_and_create_server envC10 arrReply 0
      = [Event.dm UserMsg.finalConfigWait, Event.dm UserMsg.criticalError] :=
  non_object_payload_critical_error envC10 arrReply "[1]".data 0 guildG
    (JValue.arr [JValue.num 1]) rfl rfl rfl rfl
